import Mathlib

/-!
Verification of the audio WebSocket-to-SSE relay (src/src/index.ts and
src/unnamed/part_000, two near-duplicate files of one logical component).

The TypeScript numbers (IEEE doubles) are modelled as rationals.  The
low-pass filter smoothing factor `alpha` is computed once in the source as
`dt / (RC + dt)` with `dt = 1/sampleRate` and `RC = 1/(2*pi*cutoff)`
(src/src/index.ts lines 215-217); because `pi` is transcendental the
embedding takes `alpha` itself as the parameter of the filter, and every
theorem below is stated for an arbitrary `alpha` (the reference
configuration, `sampleRate = 32000`, `cutoff = 1000`, gives
`alpha = pi / (16 + pi)`, approximately `0.164`).
-/

namespace AudioWsToSse

/-- JavaScript `Int16Array` element coercion (ToInt16): the assigned integer
is reduced modulo `2^16` into `[-32768, 32767]`.  This is what
`filtered[i] = Math.round(filteredSample)` performs in
src/src/index.ts line 224, since `filtered` is an `Int16Array`. -/
def toInt16 (n : ℤ) : ℤ := (n + 32768) % 65536 - 32768

/-- Modelled from the spec: "rounded ... and clamped to the 16-bit signed
range" (spec section 4.2).  The source does not clamp (it wraps through the
`Int16Array` store); this definition exists only to compare the spec's
claimed behaviour against the source's. -/
def clampInt16Spec (n : ℤ) : ℤ := max (-32768) (min n 32767)

/-- `applyLowPassFilter` (src/src/index.ts lines 214-228, identical in
src/unnamed/part_000 lines 293-307): the single-pole IIR loop

  `filteredSample = alpha * data[i] + (1 - alpha) * previous`
  `filtered[i] = Math.round(filteredSample)`  (stored into an `Int16Array`)
  `previous = filteredSample`

returning the rounded output array together with the final unrounded
`previous` (`lastValue`).  `alpha` stands for the constant the source
computes once from `sampleRate` and `cutoff` before the loop (see the
file-level comment).  JavaScript `Math.round` rounds half toward positive
infinity, which is Mathlib's `round`. -/
def applyLowPassFilter (alpha : ℚ) : List ℤ → ℚ → List ℤ × ℚ
  | [], prevValue => ([], prevValue)
  | x :: xs, prevValue =>
    let filteredSample := alpha * (x : ℚ) + (1 - alpha) * prevValue
    let rest := applyLowPassFilter alpha xs filteredSample
    (toInt16 (round filteredSample) :: rest.1, rest.2)

/-- The unrounded value sequence of the same loop: the successive values of
`filteredSample` (the value the source keeps in `previous`), before
`Math.round` and the `Int16Array` store. -/
def lowPassExact (alpha : ℚ) : List ℤ → ℚ → List ℚ
  | [], _ => []
  | x :: xs, prevValue =>
    let filteredSample := alpha * (x : ℚ) + (1 - alpha) * prevValue
    filteredSample :: lowPassExact alpha xs filteredSample

theorem toInt16_range (n : ℤ) : -32768 ≤ toInt16 n ∧ toInt16 n ≤ 32767 := by
  unfold toInt16
  omega

/-- C1: Filter chunk-continuity.  Filtering `A` with carry `s`, then `B`
with the returned unrounded `lastValue` as carry, gives exactly the same
rounded output sequence (and the same final carry) as filtering `A ++ B`
in one call with carry `s`: the carry handed between calls is the exact
`previous` value, so the equality is exact, not merely within tolerance. -/
theorem filter_chunk_continuity (alpha : ℚ) (A B : List ℤ) (s : ℚ) :
    applyLowPassFilter alpha (A ++ B) s =
      ((applyLowPassFilter alpha A s).1 ++
         (applyLowPassFilter alpha B (applyLowPassFilter alpha A s).2).1,
       (applyLowPassFilter alpha B (applyLowPassFilter alpha A s).2).2) := by
  induction A generalizing s with
  | nil => simp [applyLowPassFilter]
  | cons x xs ih => simp [applyLowPassFilter, ih]

/-- C4, counterexample: the source does not clamp.  With carry `100000`
and input `[32767]` (and any `alpha`; shown at `alpha = 1/2`), the
unrounded value is `66383.5`, whose rounding `66384` is stored through the
`Int16Array` coercion as `848` — not the clamped value `32767` the claim
asserts. -/
theorem filter_clamp_counterexample :
    (applyLowPassFilter (1/2) [32767] 100000).1 = [848] ∧
    clampInt16Spec (round ((1/2 : ℚ) * (32767 : ℤ) + (1 - 1/2) * 100000)) = 32767 ∧
    (848 : ℤ) ≠ 32767 := by
  refine ⟨?_, ?_, by decide⟩
  · norm_num [applyLowPassFilter, toInt16, round_eq]
  · norm_num [clampInt16Spec, round_eq]

/-- C4, amended: each output sample equals `round` of the exact filter
value converted to int16 by the `Int16Array` coercion (wrap modulo `2^16`,
not clamping); consequently every emitted sample still lies in
`[-32768, 32767]` (the wrap lands in range, it does not saturate). -/
theorem filter_output_wraps_in_range (alpha : ℚ) (data : List ℤ) (prev : ℚ) :
    (applyLowPassFilter alpha data prev).1 =
      (lowPassExact alpha data prev).map (fun q => toInt16 (round q)) ∧
    ∀ y ∈ (applyLowPassFilter alpha data prev).1, -32768 ≤ y ∧ y ≤ 32767 := by
  have hmap : ∀ (d : List ℤ) (p : ℚ),
      (applyLowPassFilter alpha d p).1 =
        (lowPassExact alpha d p).map (fun q => toInt16 (round q)) := by
    intro d
    induction d with
    | nil => intro p; simp [applyLowPassFilter, lowPassExact]
    | cons x xs ih => intro p; simp [applyLowPassFilter, lowPassExact, ih]
  refine ⟨hmap data prev, ?_⟩
  intro y hy
  rw [hmap data prev] at hy
  rcases List.mem_map.mp hy with ⟨q, _, rfl⟩
  exact toInt16_range _

/-- `DataView.getInt16(..., true)`: a little-endian byte pair read as a
signed 16-bit integer.  `u = lo + 256 * hi` is the unsigned 16-bit value;
values at or above `2^15` represent negatives. -/
def toSigned16 (u : ℕ) : ℤ := if u < 32768 then (u : ℤ) else (u : ℤ) - 65536

/-- `convertPCMToInt16` (src/src/index.ts lines 138-149, identical in
src/unnamed/part_000 lines 217-228): reinterprets a byte buffer as
little-endian signed 16-bit samples.  On an odd `byteLength` the source
computes a fractional `totalSamples = byteLength / 2`, and the loop's last
iteration calls `dataView.getInt16` two bytes past the end of the buffer,
which throws a `RangeError`; this is modelled as `none`. -/
def convertPCMToInt16 : List ℕ → Option (List ℤ)
  | [] => some []
  | lo :: hi :: rest => (convertPCMToInt16 rest).map (toSigned16 (lo + 256 * hi) :: ·)
  | [_] => none

/-- Re-encoding of one sample as a little-endian 16-bit byte pair (the
inverse direction of the round-trip in spec section 8; not in the source,
which never re-encodes). -/
def int16ToBytes (s : ℤ) : List ℕ :=
  let u := (s % 65536).toNat
  [u % 256, u / 256]

/-- Re-encoding of a sample sequence as little-endian bytes. -/
def encodePCM (samples : List ℤ) : List ℕ := samples.flatMap int16ToBytes

theorem toSigned16_int16ToBytes (lo hi : ℕ) (hlo : lo < 256) (hhi : hi < 256) :
    int16ToBytes (toSigned16 (lo + 256 * hi)) = [lo, hi] ∧
    -32768 ≤ toSigned16 (lo + 256 * hi) ∧ toSigned16 (lo + 256 * hi) ≤ 32767 := by
  simp only [toSigned16, int16ToBytes, List.cons.injEq, and_true]
  split <;> refine ⟨⟨?_, ?_⟩, ?_, ?_⟩ <;> omega

/-- C7: PCM round-trip.  For every byte buffer of even length (each byte
below 256), decoding with `convertPCMToInt16` succeeds, re-encoding each
sample as little-endian 16-bit byte pairs reproduces the original bytes
exactly, the decoded sequence has length `byteLength / 2`, and every
sample lies in `[-32768, 32767]`. -/
theorem pcm_roundtrip (bytes : List ℕ) (heven : bytes.length % 2 = 0)
    (hrange : ∀ b ∈ bytes, b < 256) :
    ∃ samples, convertPCMToInt16 bytes = some samples ∧
      encodePCM samples = bytes ∧
      samples.length = bytes.length / 2 ∧
      ∀ s ∈ samples, -32768 ≤ s ∧ s ≤ 32767 := by
  induction bytes using convertPCMToInt16.induct with
  | case1 =>
    exact ⟨[], rfl, rfl, rfl, by simp⟩
  | case2 lo hi rest ih =>
    have hlo : lo < 256 := hrange lo (by simp)
    have hhi : hi < 256 := hrange hi (by simp)
    obtain ⟨samples, hdec, henc, hlen, hmem⟩ := ih (by simp at heven; omega)
      (fun b hb => hrange b (by simp [hb]))
    obtain ⟨hinv, hsl, hsu⟩ := toSigned16_int16ToBytes lo hi hlo hhi
    refine ⟨toSigned16 (lo + 256 * hi) :: samples, ?_, ?_, ?_, ?_⟩
    · simp [convertPCMToInt16, hdec]
    · simp [encodePCM] at henc ⊢
      simp [hinv, henc]
    · simp [hlen]
      omega
    · intro s hs
      rcases List.mem_cons.mp hs with rfl | hs
      · exact ⟨hsl, hsu⟩
      · exact hmem s hs
  | case3 b =>
    simp at heven

/-- C7 witness: the round-trip at the concrete buffer
`[0x34, 0x12, 0xFF, 0xFF]` (samples `0x1234` and `-1`). -/
theorem pcm_roundtrip_witness :
    ([52, 18, 255, 255] : List ℕ).length % 2 = 0 ∧
    (∀ b ∈ ([52, 18, 255, 255] : List ℕ), b < 256) ∧
    (∃ samples, convertPCMToInt16 [52, 18, 255, 255] = some samples ∧
      encodePCM samples = [52, 18, 255, 255] ∧
      samples.length = ([52, 18, 255, 255] : List ℕ).length / 2 ∧
      ∀ s ∈ samples, -32768 ≤ s ∧ s ≤ 32767) :=
  ⟨by decide, by decide, pcm_roundtrip [52, 18, 255, 255] (by decide) (by decide)⟩

/-- The base64 alphabet used by `Buffer.toString('base64')` (RFC 4648). -/
def base64Table : List Char :=
  ['A', 'B', 'C', 'D', 'E', 'F', 'G', 'H', 'I', 'J', 'K', 'L', 'M',
   'N', 'O', 'P', 'Q', 'R', 'S', 'T', 'U', 'V', 'W', 'X', 'Y', 'Z',
   'a', 'b', 'c', 'd', 'e', 'f', 'g', 'h', 'i', 'j', 'k', 'l', 'm',
   'n', 'o', 'p', 'q', 'r', 's', 't', 'u', 'v', 'w', 'x', 'y', 'z',
   '0', '1', '2', '3', '4', '5', '6', '7', '8', '9', '+', '/']

/-- One base64 digit (6 bits). -/
def base64Digit (n : ℕ) : Char := base64Table.getD n '='

/-- Base64 character groups: 3 input bytes become 4 characters, a final
partial group is padded with `=`. -/
def base64Groups : List ℕ → List Char
  | [] => []
  | [b1] => [base64Digit (b1 / 4), base64Digit (b1 % 4 * 16), '=', '=']
  | [b1, b2] =>
    [base64Digit (b1 / 4), base64Digit (b1 % 4 * 16 + b2 / 16),
     base64Digit (b2 % 16 * 4), '=']
  | b1 :: b2 :: b3 :: rest =>
    base64Digit (b1 / 4) :: base64Digit (b1 % 4 * 16 + b2 / 16) ::
      base64Digit (b2 % 16 * 4 + b3 / 64) :: base64Digit (b3 % 64) ::
        base64Groups rest

/-- `Buffer.from(bytes).toString('base64')`
(src/src/index.ts line 196, src/unnamed/part_000 line 275). -/
def base64Encode (bytes : List ℕ) : String := String.mk (base64Groups bytes)

theorem base64Encode_ne_empty (bytes : List ℕ) (h : bytes ≠ []) :
    base64Encode bytes ≠ "" := by
  match bytes with
  | [b1] => simp [base64Encode, base64Groups, String.ext_iff]
  | [b1, b2] => simp [base64Encode, base64Groups, String.ext_iff]
  | b1 :: b2 :: b3 :: rest => simp [base64Encode, base64Groups, String.ext_iff]

/-- The `lamejs.Mp3Encoder` interface as used by the source: `encodeBuffer`
maps a block of at most 1152 samples to the MP3 bytes it emits (possibly
none, if the encoder buffers internally), and `flush()` emits the trailing
bytes.  The encoder itself is the external `@breezystack/lamejs` library,
so its behaviour is kept abstract. -/
structure Mp3Encoder where
  encodeBuffer : List ℤ → List ℕ
  flushBytes : List ℕ

/-- The block loop of `convertChunksToMp3`
(src/src/index.ts lines 171-178): the concatenated PCM data is cut into
subarrays of 1152 samples (the last one possibly shorter). -/
def blockSplit (l : List ℤ) : List (List ℤ) :=
  if h : l = [] then []
  else l.take 1152 :: blockSplit (l.drop 1152)
termination_by l.length
decreasing_by
  have : 0 < l.length := List.length_pos.mpr h
  simp only [List.length_drop]
  omega

theorem blockSplit_small (l : List ℤ) (h1 : l ≠ []) (h2 : l.length ≤ 1152) :
    blockSplit l = [l] := by
  rw [blockSplit, dif_neg h1, List.take_of_length_le h2,
    List.drop_eq_nil_of_le h2, blockSplit, dif_pos rfl]

/-- `convertChunksToMp3` (src/src/index.ts lines 155-197, identical in
src/unnamed/part_000 lines 234-276): returns `null` for an empty chunk
list; otherwise concatenates the chunks, feeds 1152-sample blocks to a
fresh encoder, appends the encoder's flush output, and base64-encodes the
combined bytes.  The source skips zero-length fragments when collecting
(`if (mp3buf.length > 0)`), which leaves the concatenation unchanged, so
the combined buffer is modelled directly as the flattened fragments
followed by the flush bytes. -/
def convertChunksToMp3 (enc : Mp3Encoder) (pcmChunks : List (List ℤ)) :
    Option String :=
  if pcmChunks.length = 0 then none
  else
    some (base64Encode
      (((blockSplit pcmChunks.flatten).map enc.encodeBuffer).flatten ++
        enc.flushBytes))

/-- SSE events written with `res.write('data: ...')` by a session: either
a `{ mp3: <base64> }` payload or an in-band `{ error: <message> }`. -/
inductive SSE where
  | mp3 (payload : String)
  | error (msg : String)
deriving DecidableEq

/-- The mutable state of one `/stream` session while connected
(src/src/index.ts lines 48-128): the chunk accumulator `audioBuffer`, the
filter carry `filterState`, whether the upstream socket is open, whether
the downstream client has disconnected, and the ordered log of SSE data
events written so far.  `encoded` and `pushedLog` are history variables
recording, respectively, each batch handed to `convertChunksToMp3` and
each filtered chunk pushed into the accumulator; they are written, never
read, by the transitions. -/
structure SessionState where
  audioBuffer : List (List ℤ)
  filterState : ℚ
  wsOpen : Bool
  clientClosed : Bool
  events : List SSE
  encoded : List (List (List ℤ))
  pushedLog : List (List ℤ)

/-- Environment events a connected session reacts to: an upstream binary
frame (`remoteWs.on('message')`), the downstream client disconnecting
(`req.on('close')`), and the flush interval firing (`setInterval`). -/
inductive Ev where
  | frame (bytes : List ℕ)
  | clientClose
  | tick

/-- The `setInterval` flush callback (src/src/index.ts lines 110-127): if
the accumulator is non-empty, convert it to MP3, reset it to `[]`, and if
the result is truthy (non-null and non-empty string) write one
`{ mp3 }` SSE event; otherwise do nothing.  The callback body runs
atomically with respect to `message` handlers: `convertChunksToMp3`
contains no internal suspension, so the `await` resumes in a microtask,
before any queued `message` macrotask can push onto `audioBuffer`. -/
def flushTick (enc : Mp3Encoder) (s : SessionState) : SessionState :=
  if s.audioBuffer.length > 0 then
    let mp3Base64 := convertChunksToMp3 enc s.audioBuffer
    let s1 := { s with audioBuffer := [], encoded := s.encoded ++ [s.audioBuffer] }
    match mp3Base64 with
    | some b => if b = "" then s1 else { s1 with events := s1.events ++ [SSE.mp3 b] }
    | none => s1
  else s

/-- One event-loop callback of a connected session.  A `frame` runs the
`message` handler (src/src/index.ts lines 74-88): decode, filter with the
carried `filterState`, push the filtered chunk; if decoding throws, the
`catch` writes one in-band SSE error event and changes nothing else.
`clientClose` runs the `req.on('close')` handler (lines 96-99), which
calls `remoteWs.close()` — and nothing else; in particular no
`clearInterval`.  `tick` runs the flush callback. -/
def step (enc : Mp3Encoder) (alpha : ℚ) (s : SessionState) : Ev → SessionState
  | .frame bytes =>
    if s.wsOpen then
      match convertPCMToInt16 bytes with
      | some int16Chunk =>
        let r := applyLowPassFilter alpha int16Chunk s.filterState
        { s with filterState := r.2,
                 audioBuffer := s.audioBuffer ++ [r.1],
                 pushedLog := s.pushedLog ++ [r.1] }
      | none =>
        { s with events := s.events ++ [SSE.error "Erro no processamento de audio"] }
    else s
  | .clientClose => { s with clientClosed := true, wsOpen := false }
  | .tick => flushTick enc s

/-- Session state right after the upstream socket opened: empty
accumulator, carry 0, no events yet. -/
def initSession : SessionState := ⟨[], 0, true, false, [], [], []⟩

/-- A run of one connected session over a list of event-loop callbacks. -/
def run (enc : Mp3Encoder) (alpha : ℚ) (evs : List Ev) : SessionState :=
  evs.foldl (step enc alpha) initSession

theorem drain_inv_step (enc : Mp3Encoder) (alpha : ℚ) (s : SessionState) (e : Ev)
    (h : s.encoded.flatten ++ s.audioBuffer = s.pushedLog) :
    (step enc alpha s e).encoded.flatten ++ (step enc alpha s e).audioBuffer =
      (step enc alpha s e).pushedLog := by
  cases e with
  | frame bytes =>
    simp only [step]
    split
    · cases hdec : convertPCMToInt16 bytes with
      | some c => simp [hdec, ← h]
      | none => simpa using h
    · exact h
  | clientClose => simpa using h
  | tick =>
    simp only [step, flushTick]
    split
    · cases convertChunksToMp3 enc s.audioBuffer with
      | some b =>
        by_cases hb : b = "" <;> simp [hb, ← h]
      | none => simp [← h]
    · exact h

/-- C2: Atomic drain.  Over every interleaving of frame pushes, client
disconnects and flush ticks, the flattened batches handed to the MP3
encoder followed by the current accumulator are exactly the filtered
chunks pushed so far, in order: every pushed chunk is either in exactly
one encoder batch or still in the accumulator — none dropped, none
duplicated.  This relies on each event-loop callback being atomic, which
holds because the flush callback's only `await` resumes in a microtask
(see `flushTick`). -/
theorem accumulator_atomic_drain (enc : Mp3Encoder) (alpha : ℚ) (evs : List Ev) :
    (run enc alpha evs).encoded.flatten ++ (run enc alpha evs).audioBuffer =
      (run enc alpha evs).pushedLog := by
  have main : ∀ (l : List Ev) (s : SessionState),
      s.encoded.flatten ++ s.audioBuffer = s.pushedLog →
      (l.foldl (step enc alpha) s).encoded.flatten ++
          (l.foldl (step enc alpha) s).audioBuffer =
        (l.foldl (step enc alpha) s).pushedLog := by
    intro l
    induction l with
    | nil => intro s h; simpa using h
    | cons e t ih => intro s h; exact ih _ (drain_inv_step enc alpha s e h)
  exact main evs initSession (by simp [initSession])

/-- C6: Flush-tick behaviour.  If the accumulator is empty the tick is a
no-op (state unchanged: no encode call, no SSE event); if it is
non-empty, exactly one `mp3` SSE event with a non-empty base64 payload is
appended and the accumulator is empty afterwards.  The hypothesis that
the encoder's `flush()` emits at least one byte models the block-encoder
contract of spec section 4.4 (`lamejs` is external; with a flush emitting
nothing the source's truthiness test `if (mp3Base64)` would suppress the
event). -/
theorem flush_tick_behaviour (enc : Mp3Encoder) (s : SessionState)
    (henc : enc.flushBytes ≠ []) :
    (s.audioBuffer = [] → flushTick enc s = s) ∧
    (s.audioBuffer ≠ [] → ∃ payload, payload ≠ "" ∧
      (flushTick enc s).events = s.events ++ [SSE.mp3 payload] ∧
      (flushTick enc s).audioBuffer = []) := by
  constructor
  · intro hb
    simp [flushTick, hb]
  · intro hb
    have hlen : 0 < s.audioBuffer.length := List.length_pos.mpr hb
    refine ⟨base64Encode
      (((blockSplit s.audioBuffer.flatten).map enc.encodeBuffer).flatten ++
        enc.flushBytes), base64Encode_ne_empty _ (by simp [henc]), ?_, ?_⟩ <;>
      simp [flushTick, convertChunksToMp3, hlen, Nat.pos_iff_ne_zero.mp hlen,
        base64Encode_ne_empty _ (List.append_ne_nil_of_right_ne_nil _ henc)]

/-- A concrete encoder instance: every block is buffered (no bytes
emitted), the flush emits one byte `255`. -/
def encW : Mp3Encoder := ⟨fun _ => [], [255]⟩

/-- A concrete session state carrying one accumulated chunk. -/
def sessionW : SessionState := ⟨[[0]], 0, true, false, [], [], [[0]]⟩

/-- C6 witness: the flush-tick behaviour at the concrete encoder `encW`
and state `sessionW`. -/
theorem flush_tick_behaviour_witness :
    encW.flushBytes ≠ [] ∧
    ((sessionW.audioBuffer = [] → flushTick encW sessionW = sessionW) ∧
     (sessionW.audioBuffer ≠ [] → ∃ payload, payload ≠ "" ∧
       (flushTick encW sessionW).events = sessionW.events ++ [SSE.mp3 payload] ∧
       (flushTick encW sessionW).audioBuffer = [])) :=
  ⟨by decide, flush_tick_behaviour encW sessionW (by decide)⟩

theorem convertPCMToInt16_odd (bytes : List ℕ) (h : bytes.length % 2 = 1) :
    convertPCMToInt16 bytes = none := by
  induction bytes using convertPCMToInt16.induct with
  | case1 => simp at h
  | case2 lo hi rest ih =>
    simp [convertPCMToInt16, ih (by simp at h; omega)]
  | case3 b => rfl

/-- Everything in a session state except the SSE event log: the
accumulator, the filter carry, the socket and client flags, and the two
history variables. -/
def coreOf (s : SessionState) :
    List (List ℤ) × ℚ × Bool × Bool × List (List (List ℤ)) × List (List ℤ) :=
  (s.audioBuffer, s.filterState, s.wsOpen, s.clientClosed, s.encoded, s.pushedLog)

theorem step_coreOf_congr (enc : Mp3Encoder) (alpha : ℚ) (s1 s2 : SessionState)
    (h : coreOf s1 = coreOf s2) (e : Ev) :
    coreOf (step enc alpha s1 e) = coreOf (step enc alpha s2 e) := by
  obtain ⟨b1, f1, w1, c1, e1, n1, p1⟩ := s1
  obtain ⟨b2, f2, w2, c2, e2, n2, p2⟩ := s2
  simp only [coreOf, Prod.mk.injEq] at h
  obtain ⟨rfl, rfl, rfl, rfl, rfl, rfl⟩ := h
  cases e with
  | frame bytes =>
    cases hdec : convertPCMToInt16 bytes <;> cases w1 <;> simp [step, coreOf, hdec]
  | clientClose => simp [step, coreOf]
  | tick =>
    simp only [step, flushTick]
    cases convertChunksToMp3 enc b1 with
    | none => split <;> simp [coreOf]
    | some b => by_cases hb : b = "" <;> split <;> simp [coreOf, hb]

/-- C10: Per-frame error containment.  A frame whose decode throws (here:
odd byte length, which makes `convertPCMToInt16` fail) is recovered
locally: the `catch` writes exactly one in-band SSE error event and
nothing else changes — accumulator, filter carry, socket and client flags
are untouched — and every subsequent run of the session behaves, in all
components except the event log, exactly as if the bad frame had never
arrived. -/
theorem frame_error_containment (enc : Mp3Encoder) (alpha : ℚ) (s : SessionState)
    (bytes : List ℕ) (evs : List Ev)
    (hodd : bytes.length % 2 = 1) (hopen : s.wsOpen = true) :
    step enc alpha s (.frame bytes) =
      { s with events := s.events ++ [SSE.error "Erro no processamento de audio"] } ∧
    coreOf (evs.foldl (step enc alpha) (step enc alpha s (.frame bytes))) =
      coreOf (evs.foldl (step enc alpha) s) := by
  have hbad : step enc alpha s (.frame bytes) =
      { s with events := s.events ++ [SSE.error "Erro no processamento de audio"] } := by
    simp [step, hopen, convertPCMToInt16_odd bytes hodd]
  refine ⟨hbad, ?_⟩
  have hco : coreOf (step enc alpha s (.frame bytes)) = coreOf s := by
    rw [hbad]; simp [coreOf]
  have main : ∀ (l : List Ev) (t1 t2 : SessionState), coreOf t1 = coreOf t2 →
      coreOf (l.foldl (step enc alpha) t1) = coreOf (l.foldl (step enc alpha) t2) := by
    intro l
    induction l with
    | nil => intro t1 t2 ht; simpa using ht
    | cons x xs ih => intro t1 t2 ht; exact ih _ _ (step_coreOf_congr enc alpha t1 t2 ht x)
  exact main evs _ _ hco

/-- C10 witness: the containment of the odd-length frame `[1]` in the
initial session state, followed by one flush tick. -/
theorem frame_error_containment_witness :
    ([1] : List ℕ).length % 2 = 1 ∧ initSession.wsOpen = true ∧
    (step encW (1/2) initSession (.frame [1]) =
      { initSession with
          events := initSession.events ++ [SSE.error "Erro no processamento de audio"] } ∧
     coreOf (([Ev.tick]).foldl (step encW (1/2)) (step encW (1/2) initSession (.frame [1]))) =
       coreOf (([Ev.tick]).foldl (step encW (1/2)) initSession)) :=
  ⟨by decide, rfl,
    frame_error_containment encW (1/2) initSession [1] [Ev.tick] (by decide) rfl⟩

/-- C9 evidence: the `req.on('close')` handler calls `remoteWs.close()`
but never `clearInterval`, so the flush interval survives the client
disconnect.  In the concrete run below, one zero frame is accumulated,
the client disconnects (the upstream socket is closed, no SSE events have
been written), and the next flush tick nevertheless encodes the leftover
buffer and performs an SSE `mp3` write — after the disconnect. -/
theorem post_disconnect_flush_write :
    (run encW (1/2) [Ev.frame [0, 0], Ev.clientClose]).clientClosed = true ∧
    (run encW (1/2) [Ev.frame [0, 0], Ev.clientClose]).wsOpen = false ∧
    (run encW (1/2) [Ev.frame [0, 0], Ev.clientClose]).events = [] ∧
    (run encW (1/2) [Ev.frame [0, 0], Ev.clientClose, Ev.tick]).events =
      [SSE.mp3 "/w=="] := by
  have h1 : step encW (1/2) initSession (Ev.frame [0, 0]) =
      ⟨[[0]], 0, true, false, [], [], [[0]]⟩ := by
    norm_num [step, initSession, convertPCMToInt16, toSigned16,
      applyLowPassFilter, toInt16, SessionState.mk.injEq]
  have h2 : step encW (1/2) (⟨[[0]], 0, true, false, [], [], [[0]]⟩ : SessionState)
      Ev.clientClose = ⟨[[0]], 0, false, true, [], [], [[0]]⟩ := rfl
  have h3 : step encW (1/2) (⟨[[0]], 0, false, true, [], [], [[0]]⟩ : SessionState)
      Ev.tick = ⟨[], 0, false, true, [SSE.mp3 "/w=="], [[[0]]], [[0]]⟩ := by
    have hb : blockSplit [(0 : ℤ)] = [[0]] := blockSplit_small _ (by simp) (by simp)
    simp [step, flushTick, convertChunksToMp3, hb, encW, base64Encode,
      base64Groups, base64Digit, base64Table, SessionState.mk.injEq]
  have hrun2 : run encW (1/2) [Ev.frame [0, 0], Ev.clientClose] =
      ⟨[[0]], 0, false, true, [], [], [[0]]⟩ := by
    simp only [run, List.foldl_cons, List.foldl_nil, h1, h2]
  have hrun3 : run encW (1/2) [Ev.frame [0, 0], Ev.clientClose, Ev.tick] =
      ⟨[], 0, false, true, [SSE.mp3 "/w=="], [[[0]]], [[0]]⟩ := by
    simp only [run, List.foldl_cons, List.foldl_nil, h1, h2, h3]
  rw [hrun2, hrun3]
  exact ⟨rfl, rfl, rfl, rfl⟩

/-- Identifier of one of two concurrently live `/stream` sessions. -/
inductive SId where
  | s1
  | s2
deriving DecidableEq

/-- The process-wide state seen by two concurrent sessions.  In the source
`filterState` is a module-level variable (`let filterState = 0`,
src/src/index.ts lines 38-39, src/unnamed/part_000 lines 26-27) declared
outside the request handler and therefore shared by every session, while
`audioBuffer` is declared inside the handler and is per-session. -/
structure TwoSessions where
  filterState : ℚ
  buf1 : List (List ℤ)
  buf2 : List (List ℤ)

/-- The `message` handler of session `i` against the shared process state:
decode the frame, filter it with the global `filterState` as carry, store
the new carry back into the global, and push the filtered chunk onto the
receiving session's own buffer (src/src/index.ts lines 74-88).  A failed
decode changes nothing (the catch only writes an event). -/
def recvFrame (alpha : ℚ) (g : TwoSessions) (i : SId) (bytes : List ℕ) :
    TwoSessions :=
  match convertPCMToInt16 bytes with
  | some int16Chunk =>
    let r := applyLowPassFilter alpha int16Chunk g.filterState
    match i with
    | .s1 => { g with filterState := r.2, buf1 := g.buf1 ++ [r.1] }
    | .s2 => { g with filterState := r.2, buf2 := g.buf2 ++ [r.1] }
  | none => g

/-- C5, counterexample: the filter carry is a process-wide variable, so a
frame received on session 1 changes the filtered output session 2 then
produces for the same input.  Starting from carry 0, session 2 receiving
the zero frame yields chunk `[0]`; if session 1 first receives the sample
`32766`, the shared carry becomes `16383` and session 2's output for the
same zero frame becomes `[8192]`: two runs differing only in session 1's
traffic give different session-2 buffers, refuting noninterference. -/
theorem session_isolation_counterexample :
    (recvFrame (1/2) (recvFrame (1/2) ⟨0, [], []⟩ .s1 [254, 127]) .s2 [0, 0]).buf2 ≠
      (recvFrame (1/2) (⟨0, [], []⟩ : TwoSessions) .s2 [0, 0]).buf2 := by
  have hd1 : convertPCMToInt16 [254, 127] = some [32766] := by
    norm_num [convertPCMToInt16, toSigned16]
  have hd0 : convertPCMToInt16 [0, 0] = some [0] := by
    norm_num [convertPCMToInt16, toSigned16]
  have hs1 : recvFrame (1/2) ⟨0, [], []⟩ .s1 [254, 127] =
      ⟨16383, [[16383]], []⟩ := by
    norm_num [recvFrame, hd1, applyLowPassFilter, toInt16,
      TwoSessions.mk.injEq, round_eq]
  rw [hs1]
  have hs2 : recvFrame (1/2) (⟨16383, [[16383]], []⟩ : TwoSessions) .s2 [0, 0] =
      ⟨16383/2, [[16383]], [[8192]]⟩ := by
    have hround : round ((16383 : ℚ) / 2) = 8192 := by
      rw [round_eq]
      norm_num
    norm_num [recvFrame, hd0, applyLowPassFilter, toInt16, hround,
      TwoSessions.mk.injEq]
  have hs2' : recvFrame (1/2) (⟨0, [], []⟩ : TwoSessions) .s2 [0, 0] =
      ⟨0, [], [[0]]⟩ := by
    norm_num [recvFrame, hd0, applyLowPassFilter, toInt16, TwoSessions.mk.injEq]
  rw [hs2, hs2']
  simp

/-- C5, amended: the accumulation buffers are per-session and disjoint —
a frame received on one session never alters the other session's buffer —
but the filter carry is a single process-wide variable shared by both
sessions (so frames on one session do influence the other's subsequent
filtered output, as the counterexample shows). -/
theorem session_buffers_disjoint (alpha : ℚ) (g : TwoSessions) (bytes : List ℕ) :
    (recvFrame alpha g .s1 bytes).buf2 = g.buf2 ∧
    (recvFrame alpha g .s2 bytes).buf1 = g.buf1 := by
  unfold recvFrame
  cases convertPCMToInt16 bytes <;> simp

/-- Outcome of one `fetch(wsURL.replace('ws', 'http'))` existence probe
in `connectWebSocket` (src/unnamed/part_000 lines 49-66): either the
response resolved with an HTTP status, or the fetch threw (handled by the
`catch` at lines 192-204). -/
inductive ProbeResult where
  | status (code : ℕ)
  | netError

/-- Where `connectWebSocket` ends up before any socket event arrives. -/
inductive ConnectOutcome where
  | respond404
  | openSocket (retriesUsed : ℕ)
  | respond503MaxRetries
  | outOfProbes
deriving DecidableEq

/-- `connectWebSocket` of src/unnamed/part_000 (lines 49-66 and the catch
at 192-204), driven by the sequence of probe outcomes, carrying the
closure-captured `retryCount`: a 404 status responds not-found; a 400
status with retry budget left schedules a retry (the next probe); any
other resolved status — including 400 with the budget exhausted — falls
through to `new WebSocket(wsURL)`; a thrown fetch retries while budget
remains and responds 503 "Connection failed after max retries" once it is
exhausted. -/
def connectWebSocket (maxRetries : ℕ) : List ProbeResult → ℕ → ConnectOutcome
  | [], _ => .outOfProbes
  | .status code :: rest, retryCount =>
    if code = 404 then .respond404
    else if code = 400 ∧ retryCount < maxRetries then
      connectWebSocket maxRetries rest (retryCount + 1)
    else .openSocket retryCount
  | .netError :: rest, retryCount =>
    if retryCount < maxRetries then connectWebSocket maxRetries rest (retryCount + 1)
    else .respond503MaxRetries

/-- C3 evidence: with `MAX_RETRIES = 30`, a probe that returns the
transient status 400 on the initial attempt and on all 30 retries makes
the code proceed to open the WebSocket (the `// If status is OK, proceed`
fall-through) instead of producing the terminal failure the claim — and
the code's own comment — require; the terminal 503 exists only on the
thrown-fetch path. -/
theorem retry_exhaustion_opens_socket :
    connectWebSocket 30 (List.replicate 31 (ProbeResult.status 400)) 0 =
      ConnectOutcome.openSocket 30 ∧
    connectWebSocket 30 (List.replicate 31 ProbeResult.netError) 0 =
      ConnectOutcome.respond503MaxRetries := by
  constructor <;> decide

/-- Response-side actions a session handler performs, in order. -/
inductive Act where
  | sockOpen
  | writeHeadSSE
  | respondJson (code : ℕ)
  | closeSock
  | endRes
deriving DecidableEq

/-- Socket-lifecycle events delivered to a handler after it created the
upstream WebSocket. -/
inductive SockEv where
  | opened
  | errored (code : ℕ)
  | closedEv (r404 r400 : Bool)
  | timeoutFired
  | clientClose

/-- State of one handler: whether the socket's `open` fired, the retry
counter, and the ordered log of response/socket actions performed. -/
structure HandlerState where
  socketOpened : Bool
  retryCount : ℕ
  log : List Act

/-- `true` iff the `Act.sockOpen` action occurs in the log. -/
def hasOpen : List Act → Bool
  | [] => false
  | Act.sockOpen :: _ => true
  | _ :: rest => hasOpen rest

/-- `true` iff, starting with socket-open flag `opened`, every
`Act.writeHeadSSE` in the log is preceded by an `Act.sockOpen`. -/
def headersAfterOpenFrom (opened : Bool) : List Act → Bool
  | [] => true
  | Act.sockOpen :: rest => headersAfterOpenFrom true rest
  | Act.writeHeadSSE :: rest => opened && headersAfterOpenFrom opened rest
  | _ :: rest => headersAfterOpenFrom opened rest

theorem hasOpen_append (l1 l2 : List Act) :
    hasOpen (l1 ++ l2) = (hasOpen l1 || hasOpen l2) := by
  induction l1 with
  | nil => simp [hasOpen]
  | cons a t ih => cases a <;> simp [hasOpen, ih]

theorem headersAfterOpenFrom_append (b : Bool) (l1 l2 : List Act) :
    headersAfterOpenFrom b (l1 ++ l2) =
      (headersAfterOpenFrom b l1 &&
        headersAfterOpenFrom (b || hasOpen l1) l2) := by
  induction l1 generalizing b with
  | nil => simp [headersAfterOpenFrom, hasOpen]
  | cons a t ih => cases a <;> simp [headersAfterOpenFrom, hasOpen, ih, Bool.and_assoc]

/-- The socket-event handlers of src/unnamed/part_000, lines 80-141 and
166-170, as one step function.  `opened` (lines 80-90): clear the
connection timeout and, only now, write the SSE 200 headers.  `errored`
(lines 92-111): status 400 with retry budget re-enters
`connectWebSocket` (whose only SSE-header write site is again an `open`
handler), 404 responds not-found and closes, anything else responds 502.
`closedEv` (lines 113-141): derive a status from the reason text (404
wins over 400, default 503), retry on 400 with budget, otherwise respond
with the status.  `timeoutFired` (lines 73-78): if the socket is not yet
open, respond 504 and close.  `clientClose` (lines 167-170): close the
upstream socket. -/
def p0Step (maxRetries : ℕ) (s : HandlerState) : SockEv → HandlerState
  | .opened =>
    { s with socketOpened := true,
             log := s.log ++ [Act.sockOpen, Act.writeHeadSSE] }
  | .errored code =>
    if code = 400 ∧ s.retryCount < maxRetries then
      { s with retryCount := s.retryCount + 1 }
    else if code = 404 then
      { s with log := s.log ++ [Act.respondJson 404, Act.closeSock] }
    else
      { s with log := s.log ++ [Act.respondJson 502] }
  | .closedEv r404 r400 =>
    let statusCode : ℕ := if r404 then 404 else if r400 then 400 else 503
    if statusCode = 400 ∧ s.retryCount < maxRetries then
      { s with retryCount := s.retryCount + 1 }
    else if statusCode = 404 then
      { s with log := s.log ++ [Act.respondJson 404] }
    else
      { s with log := s.log ++ [Act.respondJson statusCode] }
  | .timeoutFired =>
    if s.socketOpened then s
    else { s with log := s.log ++ [Act.respondJson 504, Act.closeSock] }
  | .clientClose => { s with log := s.log ++ [Act.closeSock] }

/-- A run of the src/unnamed/part_000 handler from the moment the socket
is created (empty action log, `open` not yet fired). -/
def p0Run (maxRetries : ℕ) (evs : List SockEv) : HandlerState :=
  evs.foldl (p0Step maxRetries) ⟨false, 0, []⟩

theorem p0Step_headers (maxRetries : ℕ) (s : HandlerState) (e : SockEv)
    (h : headersAfterOpenFrom false s.log = true) :
    headersAfterOpenFrom false (p0Step maxRetries s e).log = true := by
  cases e <;> simp only [p0Step] <;> repeat' split
  all_goals
    first
      | exact h
      | simp [headersAfterOpenFrom_append, headersAfterOpenFrom, h]

/-- C8, amended: in the src/unnamed/part_000 handler the SSE 200 headers
are written only inside the socket `open` handler, so in every run every
header write is preceded by the socket-open event; the src/src/index.ts
handler instead writes the headers immediately on request, before the
socket even exists (see the counterexample), so there the client can
observe the stream before upstream connectivity is confirmed. -/
theorem p0_headers_only_after_open (maxRetries : ℕ) (evs : List SockEv) :
    headersAfterOpenFrom false (p0Run maxRetries evs).log = true := by
  suffices main : ∀ (l : List SockEv) (s : HandlerState),
      headersAfterOpenFrom false s.log = true →
      headersAfterOpenFrom false (l.foldl (p0Step maxRetries) s).log = true by
    exact main evs ⟨false, 0, []⟩ rfl
  intro l
  induction l with
  | nil => intro s h; simpa using h
  | cons e t ih => intro s h; exact ih _ (p0Step_headers maxRetries s e h)

/-- The socket-event handlers of src/src/index.ts: `open` (lines 69-71)
only logs to the console; `error` (lines 90-93) and `message` failures
write in-band SSE data events, not headers; `close` (lines 101-106) ends
the response after a delay; the client disconnect (lines 96-99) closes
the upstream socket. -/
def idxStep (s : HandlerState) : SockEv → HandlerState
  | .opened => { s with socketOpened := true, log := s.log ++ [Act.sockOpen] }
  | .errored _ => s
  | .closedEv _ _ => { s with log := s.log ++ [Act.endRes] }
  | .timeoutFired => s
  | .clientClose => { s with log := s.log ++ [Act.closeSock] }

/-- A run of the src/src/index.ts handler.  Its initial log already
contains the SSE 200 header write: `res.writeHead(200, ...)` at lines
59-63 runs synchronously in the request handler, before
`new WebSocket(wsURL)` at line 66. -/
def idxRun (evs : List SockEv) : HandlerState :=
  evs.foldl idxStep ⟨false, 0, [Act.writeHeadSSE]⟩

/-- C8, counterexample: in the src/src/index.ts handler the SSE headers
are written before the upstream socket's `open` event — even in a run
where the socket does open, the header write precedes it in the action
log, so the claimed ordering fails. -/
theorem sse_headers_before_open_counterexample :
    (idxRun [SockEv.opened]).log = [Act.writeHeadSSE, Act.sockOpen] ∧
    headersAfterOpenFrom false (idxRun [SockEv.opened]).log = false := by
  constructor <;> decide

end AudioWsToSse
